import Mathlib

/-!
Verification of the response-stream decoder and request builder of
`src/provider.ts` (class `LiteLLMChatModelProvider`).

The TypeScript source is shallowly embedded: JavaScript strings are modelled
as `List Char` (one entry per Unicode scalar; the claims only exercise ASCII,
where JS UTF-16 code units and scalars coincide), `JSON.parse` by a fuel-based
recursive-descent parser `parseJson` over a `Json` inductive, the readable
byte stream by a list of chunks (`TextDecoder` in streaming mode makes byte
and character chunk boundaries equivalent), and the cancellation token by the
Bool-valued sequence of its polled values.
-/

set_option maxRecDepth 10000

namespace LiteLLM

/-- JSON values as produced by `JSON.parse`.  Numbers are kept exactly as
rationals (every JSON numeric literal denotes a decimal, which `Rat`
represents exactly; JavaScript further rounds to binary floating point, a
difference none of the claims exercises since all claim-relevant payload
numbers are small integers). -/
inductive Json where
  | null
  | bool (b : Bool)
  | num (q : Rat)
  | str (s : String)
  | arr (elems : List Json)
  | obj (fields : List (String × Json))

/-- JSON whitespace accepted between tokens by `JSON.parse`. -/
def isWs (c : Char) : Bool := c = ' ' || c = '\t' || c = '\n' || c = '\r'

def skipWs : List Char → List Char
  | [] => []
  | c :: cs => if isWs c then skipWs cs else c :: cs

/-- Decimal digit test via scalar codes (48-57 are the digits). -/
def isDigitCh (c : Char) : Bool := 48 ≤ c.toNat && c.toNat ≤ 57

def digitVal (c : Char) : Nat := c.toNat - 48

def takeDigits : List Char → List Char × List Char
  | [] => ([], [])
  | c :: cs =>
    if isDigitCh c then
      let r := takeDigits cs
      (c :: r.1, r.2)
    else ([], c :: cs)

def digitsToNat (ds : List Char) : Nat :=
  ds.foldl (fun acc c => acc * 10 + digitVal c) 0

/-- Fraction part of a JSON number: either absent, or a dot followed by at
least one digit. -/
def parseFrac : List Char → Option (List Char × List Char)
  | '.' :: rest =>
    let r := takeDigits rest
    if r.1 = [] then none else some r
  | cs => some ([], cs)

/-- Exponent part of a JSON number. -/
def parseExp : List Char → Option (Int × List Char)
  | [] => some (0, [])
  | c :: rest =>
    if c = 'e' || c = 'E' then
      let signed : Bool × List Char :=
        match rest with
        | '+' :: r => (false, r)
        | '-' :: r => (true, r)
        | _ => (false, rest)
      let r := takeDigits signed.2
      if r.1 = [] then none
      else some ((if signed.1 then -(digitsToNat r.1 : Int) else (digitsToNat r.1 : Int)), r.2)
    else some (0, c :: rest)

/-- JSON number literal, per the `JSON.parse` grammar (no leading zeros, no
bare dot). -/
def parseNumber (cs : List Char) : Option (Rat × List Char) :=
  let signed : Bool × List Char :=
    match cs with
    | '-' :: rest => (true, rest)
    | _ => (false, cs)
  let ir := takeDigits signed.2
  if ir.1 = [] then none
  else if 1 < ir.1.length && ir.1.head? = some '0' then none
  else
    match parseFrac ir.2 with
    | none => none
    | some (fds, cs3) =>
      match parseExp cs3 with
      | none => none
      | some (e, cs4) =>
        let mant : Int := (digitsToNat ir.1 * 10 ^ fds.length + digitsToNat fds : Nat)
        let mant : Int := if signed.1 then -mant else mant
        let q : Rat := (mant : Rat) / ((10 : Rat) ^ fds.length) * ((10 : Rat) ^ e)
        some (q, cs4)

/-- Value of one hex digit (0-9, a-f, A-F), via scalar codes: 97-102 are the
lowercase and 65-70 the uppercase letters, offset so that a/A ↦ 10. -/
def hexVal (c : Char) : Option Nat :=
  let n := c.toNat
  if isDigitCh c then some (digitVal c)
  else if 97 ≤ n && n ≤ 102 then some (n - 87)
  else if 65 ≤ n && n ≤ 70 then some (n - 55)
  else none

def parseHex4 : List Char → Option (Nat × List Char)
  | a :: b :: c :: d :: rest =>
    match hexVal a, hexVal b, hexVal c, hexVal d with
    | some x, some y, some z, some w => some ((((x * 16 + y) * 16 + z) * 16 + w), rest)
    | _, _, _, _ => none
  | _ => none

/-- Body of a JSON string literal after the opening quote, with the standard
escapes.  A `\uXXXX`/`\uYYYY` surrogate pair is combined into one scalar; a
lone surrogate (representable in a JS UTF-16 string but not in a Lean one)
is replaced by U+FFFD — no claim exercises surrogates. -/
def parseStringBody : Nat → List Char → List Char → Option (String × List Char)
  | 0, _, _ => none
  | _, [], _ => none
  | fuel + 1, c :: rest, acc =>
    if c = '"' then some (String.mk acc.reverse, rest)
    else if c = '\\' then
      match rest with
      | [] => none
      | e :: rest2 =>
        if e = '"' then parseStringBody fuel rest2 ( '"' :: acc)
        else if e = '\\' then parseStringBody fuel rest2 ( '\\' :: acc)
        else if e = '/' then parseStringBody fuel rest2 ( '/' :: acc)
        else if e = 'b' then parseStringBody fuel rest2 ( '\x08' :: acc)
        else if e = 'f' then parseStringBody fuel rest2 ( '\x0c' :: acc)
        else if e = 'n' then parseStringBody fuel rest2 ( '\n' :: acc)
        else if e = 'r' then parseStringBody fuel rest2 ( '\r' :: acc)
        else if e = 't' then parseStringBody fuel rest2 ( '\t' :: acc)
        else if e = 'u' then
          match parseHex4 rest2 with
          | none => none
          | some (n, rest3) =>
            if 0xd800 ≤ n && n ≤ 0xdbff then
              match rest3 with
              | '\\' :: 'u' :: rest4 =>
                match parseHex4 rest4 with
                | some (m, rest5) =>
                  if 0xdc00 ≤ m && m ≤ 0xdfff then
                    parseStringBody fuel rest5
                      ( (Char.ofNat (0x10000 + (n - 0xd800) * 0x400 + (m - 0xdc00))) :: acc)
                  else parseStringBody fuel rest3 ( '�' :: acc)
                | none => parseStringBody fuel rest3 ( '�' :: acc)
              | _ => parseStringBody fuel rest3 ( '�' :: acc)
            else if 0xdc00 ≤ n && n ≤ 0xdfff then parseStringBody fuel rest3 ( '�' :: acc)
            else parseStringBody fuel rest3 ( (Char.ofNat n) :: acc)
        else none
    else if c.toNat < 0x20 then none
    else parseStringBody fuel rest (c :: acc)

/-- Strip an expected keyword continuation (`ull`, `rue`, `alse`). -/
def stripLit (lit cs : List Char) : Option (List Char) :=
  if lit.isPrefixOf cs then some (cs.drop lit.length) else none

mutual

/-- One JSON value, recursive descent with fuel (each recursive call consumes
one unit; `parseJson` supplies enough fuel for any input). -/
def parseValue : Nat → List Char → Option (Json × List Char)
  | 0, _ => none
  | fuel + 1, cs =>
    match skipWs cs with
    | [] => none
    | c :: rest =>
      if c = 'n' then
        match stripLit "ull".data rest with
        | some r => some (Json.null, r)
        | none => none
      else if c = 't' then
        match stripLit "rue".data rest with
        | some r => some (Json.bool true, r)
        | none => none
      else if c = 'f' then
        match stripLit "alse".data rest with
        | some r => some (Json.bool false, r)
        | none => none
      else if c = '"' then
        match parseStringBody (rest.length + 1) rest [] with
        | some (s, r) => some (Json.str s, r)
        | none => none
      else if c = '[' then
        match skipWs rest with
        | ']' :: r => some (Json.arr [], r)
        | r2 =>
          match parseElems fuel r2 with
          | some (xs, r3) => some (Json.arr xs, r3)
          | none => none
      else if c = '\x7b' then
        match skipWs rest with
        | '\x7d' :: r => some (Json.obj [], r)
        | r2 =>
          match parseFields fuel r2 with
          | some (fs, r3) => some (Json.obj fs, r3)
          | none => none
      else
        match parseNumber (c :: rest) with
        | some (q, r) => some (Json.num q, r)
        | none => none

/-- Comma-separated array elements up to the closing bracket. -/
def parseElems : Nat → List Char → Option (List Json × List Char)
  | 0, _ => none
  | fuel + 1, cs =>
    match parseValue fuel cs with
    | none => none
    | some (x, r) =>
      match skipWs r with
      | ',' :: r2 =>
        match parseElems fuel r2 with
        | some (xs, r3) => some (x :: xs, r3)
        | none => none
      | ']' :: r2 => some ([x], r2)
      | _ => none

/-- Comma-separated object members up to the closing brace. -/
def parseFields : Nat → List Char → Option (List (String × Json) × List Char)
  | 0, _ => none
  | fuel + 1, cs =>
    match skipWs cs with
    | '"' :: rest =>
      match parseStringBody (rest.length + 1) rest [] with
      | none => none
      | some (k, r) =>
        match skipWs r with
        | ':' :: r2 =>
          match parseValue fuel r2 with
          | none => none
          | some (v, r3) =>
            match skipWs r3 with
            | ',' :: r4 =>
              match parseFields fuel r4 with
              | some (fs, r5) => some ((k, v) :: fs, r5)
              | none => none
            | '\x7d' :: r4 => some ([(k, v)], r4)
            | _ => none
        | _ => none
    | _ => none

end

/-- Model of `JSON.parse`: the whole input (with surrounding whitespace) must
be exactly one JSON value, otherwise the parse throws (`none`). -/
def parseJson (cs : List Char) : Option Json :=
  match parseValue (2 * cs.length + 8) cs with
  | some (j, rest) => if skipWs rest = [] then some j else none
  | none => none

/-- JavaScript object-property lookup after `JSON.parse`: when the same key
occurs several times in one JSON object the later occurrence wins. -/
def lookupLast : List (String × Json) → String → Option Json
  | [], _ => none
  | f :: rest, key =>
    match lookupLast rest key with
    | some r => some r
    | none => if f.1 = key then some f.2 else none

/-- One step of an optional-chained property access `base?.key`: `undefined`
(`none`) and `null` short-circuit; a non-object base has no such property
(the fixed keys used by the decoder are not built-ins like `length`). -/
def jsGet : Option Json → String → Option Json
  | some (Json.obj fs), key => lookupLast fs key
  | _, _ => none

/-- The access `base?.[0]`: first element of an array, member `"0"` of an
object, first code unit of a non-empty string, `undefined` otherwise. -/
def jsIndex0 : Option Json → Option Json
  | some (Json.arr (x :: _)) => some x
  | some (Json.obj fs) => lookupLast fs "0"
  | some (Json.str s) =>
    match s.data with
    | c :: _ => some (Json.str (String.mk [c]))
    | [] => none
  | _ => none

/-- JavaScript truthiness of a parsed JSON value. -/
def jsTruthy : Json → Bool
  | Json.null => false
  | Json.bool b => b
  | Json.num q => q != 0
  | Json.str s => s != ""
  | Json.arr _ => true
  | Json.obj _ => true

/-- `undefined` or `null`, the two values skipped by the `??` operator. -/
def jsNullish : Option Json → Bool
  | none => true
  | some Json.null => true
  | some _ => false

/-- Rendering of a number by JavaScript string conversion.  Exact for
integers (the only numbers the claims exercise); for non-integral rationals
this is an approximation of the ECMAScript shortest-round-trip float
rendering, which no claim evaluates. -/
def ratToJsString (q : Rat) : String :=
  if q.den = 1 then toString q.num else toString q

mutual

/-- JavaScript `String(x)` on a parsed JSON value. -/
def jsToString : Json → String
  | Json.null => "null"
  | Json.bool true => "true"
  | Json.bool false => "false"
  | Json.num q => ratToJsString q
  | Json.str s => s
  | Json.arr xs => jsArrayToString xs
  | Json.obj _ => "[object Object]"

/-- `Array.prototype.toString`: elements joined with commas, `null` rendered
as the empty string. -/
def jsArrayToString : List Json → String
  | [] => ""
  | [Json.null] => ""
  | [x] => jsToString x
  | Json.null :: xs => "," ++ jsArrayToString xs
  | x :: xs => jsToString x ++ "," ++ jsArrayToString xs

end

/-- Lowercase hex digit for a value below 16 (scalar codes: digits start at
48, lowercase letters at 97 = 87 + 10). -/
def hexDigitCh (n : Nat) : Char :=
  Char.ofNat (if n < 10 then n + 48 else n + 87)

/-- One character of a `JSON.stringify` string literal. -/
def escapeJsonChar (c : Char) : String :=
  if c = '"' then "\\\""
  else if c = '\\' then "\\\\"
  else if c = '\x08' then "\\b"
  else if c = '\x0c' then "\\f"
  else if c = '\n' then "\\n"
  else if c = '\r' then "\\r"
  else if c = '\t' then "\\t"
  else if c.toNat < 0x20 then
    "\\u00" ++ String.mk [hexDigitCh (c.toNat / 16), hexDigitCh (c.toNat % 16)]
  else String.mk [c]

def quoteJson (s : String) : String :=
  "\"" ++ String.join (s.data.map escapeJsonChar) ++ "\""

def mkIndent (n : Nat) : String := String.mk (List.replicate n ' ')

mutual

/-- `JSON.stringify(x, null, gap)` (`gap = 0` is the compact two-argument
form used for the tool estimate, `gap = 2` the pretty form used by the
non-streaming fallback). -/
def jsonStringify (gap depth : Nat) : Json → String
  | Json.null => "null"
  | Json.bool true => "true"
  | Json.bool false => "false"
  | Json.num q => ratToJsString q
  | Json.str s => quoteJson s
  | Json.arr [] => "[]"
  | Json.arr (x :: xs) =>
    if gap = 0 then "[" ++ stringifyElems gap depth (x :: xs) ++ "]"
    else
      "[\n" ++ mkIndent (gap * (depth + 1)) ++ stringifyElems gap (depth + 1) (x :: xs)
        ++ "\n" ++ mkIndent (gap * depth) ++ "]"
  | Json.obj [] => "\x7b\x7d"
  | Json.obj (f :: fs) =>
    if gap = 0 then "\x7b" ++ stringifyFields gap depth (f :: fs) ++ "\x7d"
    else
      "\x7b\n" ++ mkIndent (gap * (depth + 1)) ++ stringifyFields gap (depth + 1) (f :: fs)
        ++ "\n" ++ mkIndent (gap * depth) ++ "\x7d"

def stringifyElems (gap depth : Nat) : List Json → String
  | [] => ""
  | [x] => jsonStringify gap depth x
  | x :: xs =>
    jsonStringify gap depth x
      ++ (if gap = 0 then "," else ",\n" ++ mkIndent (gap * depth))
      ++ stringifyElems gap depth xs

def stringifyFields (gap depth : Nat) : List (String × Json) → String
  | [] => ""
  | [f] => quoteJson f.1 ++ (if gap = 0 then ":" else ": ") ++ jsonStringify gap depth f.2
  | f :: fs =>
    quoteJson f.1 ++ (if gap = 0 then ":" else ": ") ++ jsonStringify gap depth f.2
      ++ (if gap = 0 then "," else ",\n" ++ mkIndent (gap * depth))
      ++ stringifyFields gap depth fs

end

/-! ## Response parts and the streaming decoder (`processStreamingResponse`) -/

/-- An emitted `LanguageModelResponsePart`: either a
`LanguageModelTextPart` or a `LanguageModelToolCallPart`.  The source's
streaming loop reports only text parts; the tool-call constructor exists so
that "no tool-invocation part is emitted" is expressible. -/
inductive Part where
  | text (value : String)
  | toolCall (callId : String) (toolName : String) (args : Json)

/-- The chain `parsed?.choices?.[0]?.delta?.content` from the streaming
loop. -/
def deltaContent (parsed : Json) : Option Json :=
  jsGet (jsGet (jsIndex0 (jsGet (some parsed) "choices")) "delta") "content"

/-- Handling of one event payload (the part of the loop body after the
`"data: "` prefix has been stripped and the `"[DONE]"` test has failed):
`JSON.parse` inside `try`, emit a text part when the delta content is truthy,
swallow parse failures. -/
def emitForData (data : List Char) : List Part :=
  match parseJson data with
  | some parsed =>
    match deltaContent parsed with
    | some c => if jsTruthy c then [Part.text (jsToString c)] else []
    | none => []
  | none => []

def dataPrefix : List Char := "data: ".data

/-- The inner `for (const line of lines)` loop: skip lines without the
`"data: "` marker, return on the `"[DONE]"` sentinel (second component
`true`), otherwise collect the parts of each event.  The returned parts are
in emission order. -/
def processLines : List (List Char) → List Part × Bool
  | [] => ([], false)
  | line :: rest =>
    if dataPrefix.isPrefixOf line then
      if line.drop 6 = "[DONE]".data then ([], true)
      else
        let r := processLines rest
        (emitForData (line.drop 6) ++ r.1, r.2)
    else processLines rest

/-- Prepend an ordinary (non-newline) character to a split result: it lands
at the front of the first complete line if one exists, otherwise at the
front of the trailing fragment. -/
def pushChar (c : Char) : List (List Char) × List Char → List (List Char) × List Char
  | ([], t) => ([], c :: t)
  | (l :: ls, t) => ((c :: l) :: ls, t)

/-- `buffer.split("\n")` followed by `buffer = lines.pop() || ""`: the
complete lines and the trailing (possibly empty) fragment. -/
def splitNl : List Char → List (List Char) × List Char
  | [] => ([], [])
  | c :: cs =>
    if c = '\n' then ([] :: (splitNl cs).1, (splitNl cs).2)
    else pushChar c (splitNl cs)

/-- The `while (!token.isCancellationRequested)` read loop.  `cancelled n` is
the value of the token at its `n`-th poll (the function is shifted by one at
each recursive step); `chunks` are the successive reads, after which the
reader reports `done`.  Returns the parts reported to `progress`, in order.
Leftover buffered text at cancellation or end of stream is discarded, as in
the source. -/
def processChunks (cancelled : Nat → Bool) (buffer : List Char) (chunks : List (List Char)) :
    List Part :=
  match chunks with
  | [] => []
  | chunk :: rest =>
    if cancelled 0 then []
    else
      let s := splitNl (buffer ++ chunk)
      let r := processLines s.1
      if r.2 then r.1
      else r.1 ++ processChunks (fun i => cancelled (i + 1)) s.2 rest

/-- `processStreamingResponse`, starting from the empty carry-over buffer. -/
def processStreamingResponse (cancelled : Nat → Bool) (chunks : List (List Char)) : List Part :=
  processChunks cancelled [] chunks

/-- A token that is never cancelled. -/
def neverCancelled : Nat → Bool := fun _ => false

/-! ## Non-streaming path (`provideLanguageModelChatResponse`, lines 170-181) -/

/-- `String.prototype.includes`: substring search. -/
def containsSub (needle hay : List Char) : Bool :=
  match hay with
  | [] => needle.isEmpty
  | _ :: t => needle.isPrefixOf hay || containsSub needle t

/-- The branch test `contentType.includes("text/event-stream")` on
`response.headers.get("content-type") ?? ""`. -/
def isEventStreamContent (contentType : Option String) : Bool :=
  containsSub "text/event-stream".data (contentType.getD "").data

/-- The chain `json?.choices?.[0]?.message?.content`. -/
def choiceMessageContent (json : Json) : Option Json :=
  jsGet (jsGet (jsIndex0 (jsGet (some json) "choices")) "message") "content"

/-- The chain `json?.assistant?.response?.[0]?.content`. -/
def assistantResponseContent (json : Json) : Option Json :=
  jsGet (jsIndex0 (jsGet (jsGet (some json) "assistant") "response")) "content"

/-- `String(A ?? B ?? JSON.stringify(json, null, 2))` with `A`, `B` the two
chains above. -/
def nonStreamText (json : Json) : String :=
  if jsNullish (choiceMessageContent json) = false then
    jsToString ((choiceMessageContent json).getD Json.null)
  else if jsNullish (assistantResponseContent json) = false then
    jsToString ((assistantResponseContent json).getD Json.null)
  else jsonStringify 2 0 json

/-- The non-streaming branch reports exactly one text part and returns. -/
def nonStreamingParts (json : Json) : List Part :=
  [Part.text (nonStreamText json)]

/-- Dispatch on the response content type: the event-stream path consumes the
body chunks, the non-streaming path the single parsed JSON document. -/
def respondParts (contentType : Option String) (cancelled : Nat → Bool)
    (chunks : List (List Char)) (json : Json) : List Part :=
  if isEventStreamContent contentType then processStreamingResponse cancelled chunks
  else nonStreamingParts json

/-! ## Request body assembly (`provideLanguageModelChatResponse`, lines 139-145) -/

/-- JavaScript `x || dflt` on an optional number: a present non-zero value
wins, while an absent value — or a present falsy one such as `0` — yields
the default.  (This is the source's operator; the spec wrote `??`.) -/
def jsOr (v : Option Int) (dflt : Int) : Int :=
  match v with
  | some r => if r = 0 then dflt else r
  | none => dflt

/-- The fixed fields of the backend request body.  `tools`/`tool_choice` are
attached afterwards by delegated translation and are outside the clamping
contract under verification. -/
structure RequestBody where
  model : String
  stream : Bool
  max_tokens : Int
  temperature : Rat

/-- Lines 139-145: `max_tokens: Math.min(options.modelOptions?.max_tokens ||
4096, model.maxOutputTokens)`, `temperature: options.modelOptions?.temperature
?? 0.7`. -/
def mkRequestBody (modelId : String) (maxOutputTokens : Int)
    (optMaxTokens : Option Int) (optTemperature : Option Rat) : RequestBody :=
  ⟨modelId, true, min (jsOr optMaxTokens 4096) maxOutputTokens,
    optTemperature.getD (7 / 10)⟩

/-! ## Token estimators (lines 43-62) -/

/-- One element of a request message's `content` array; the estimator only
inspects parts that are `instanceof vscode.LanguageModelTextPart`. -/
inductive MessagePart where
  | text (value : String)
  | other

structure ChatMessage where
  content : List MessagePart

/-- `estimateMessagesTokens`: the nested `for` loops accumulating
`Math.ceil(part.value.length / 4)` per text part. -/
def estimateMessagesTokens (msgs : List ChatMessage) : Nat :=
  msgs.foldl
    (fun total m =>
      m.content.foldl
        (fun t p =>
          match p with
          | MessagePart.text v => t + (v.length + 3) / 4
          | MessagePart.other => t)
        total)
    0

/-- The `function` member of a tool schema entry; `JSON.stringify` omits the
absent optional members. -/
structure ToolFunctionDecl where
  name : String
  description : Option String
  parameters : Option Json

structure ToolSchema where
  type : String
  toolFunction : ToolFunctionDecl

def toolFunctionToJson (f : ToolFunctionDecl) : Json :=
  Json.obj ([("name", Json.str f.name)]
    ++ (match f.description with
        | some d => [("description", Json.str d)]
        | none => [])
    ++ (match f.parameters with
        | some p => [("parameters", p)]
        | none => []))

def toolSchemaToJson (t : ToolSchema) : Json :=
  Json.obj [("type", Json.str t.type), ("function", toolFunctionToJson t.toolFunction)]

/-- `estimateToolTokens`: 0 for absent or empty tools, otherwise
`Math.ceil(JSON.stringify(tools).length / 4)`.  The source's `catch` arm
returning 0 is unreachable here: serializing this cycle-free data never
throws, so the embedding is total. -/
def estimateToolTokens (tools : Option (List ToolSchema)) : Nat :=
  match tools with
  | none => 0
  | some ts =>
    if ts.length = 0 then 0
    else ((jsonStringify 0 0 (Json.arr (ts.map toolSchemaToJson))).length + 3) / 4

/-! ## Per-turn provider state (fields of `LiteLLMChatModelProvider` and the
reset block at lines 125-132) -/

/-- An entry of `_toolCallBuffers`. -/
structure ToolCallBuffer where
  id : Option String
  name : Option String
  args : String

/-- The `_textToolActive` record. -/
structure TextToolActive where
  name : Option String
  index : Option Nat
  argBuffer : String
  emitted : Option Bool

/-- The per-turn mutable fields of the provider instance (`Map` and `Set`
modelled as lists).  `_chatEndpoints` is catalog state with provider
lifetime, not turn state, and is excluded. -/
structure TurnState where
  toolCallBuffers : List (Nat × ToolCallBuffer)
  completedToolCallIndices : List Nat
  hasEmittedAssistantText : Bool
  emittedBeginToolCallsHint : Bool
  textToolParserBuffer : String
  textToolActive : Option TextToolActive
  emittedTextToolCallKeys : List String
  emittedTextToolCallIds : List String

/-- The eight assignments at the top of `provideLanguageModelChatResponse`
(lines 125-132), applied to whatever state the previous turn left behind. -/
def resetTurnState (s : TurnState) : TurnState :=
  { s with
    toolCallBuffers := []
    completedToolCallIndices := []
    hasEmittedAssistantText := false
    emittedBeginToolCallsHint := false
    textToolParserBuffer := ""
    textToolActive := none
    emittedTextToolCallKeys := []
    emittedTextToolCallIds := [] }

/-- The state a freshly constructed provider starts with. -/
def freshTurnState : TurnState := ⟨[], [], false, false, "", none, [], []⟩

/-! ## Statement-support definitions -/

/-- A well-formed event stream carrying one structured tool call split over
two delta events (id/name and argument text tagged `index 0`, then a
`finish_reason: "tool_calls"` event), ending in the `[DONE]` sentinel — the
spec's own worked example of tool-call reconstruction. -/
def toolCallStream : String :=
  "data: \x7b\"choices\":[\x7b\"delta\":\x7b\"tool_calls\":[\x7b\"index\":0,\"id\":\"c1\",\"function\":\x7b\"name\":\"lookup\",\"arguments\":\"\x7b\\\"q\\\":\\\"x\\\"\x7d\"\x7d\x7d]\x7d\x7d]\x7d\ndata: \x7b\"choices\":[\x7b\"delta\":\x7b\x7d,\"finish_reason\":\"tool_calls\"\x7d]\x7d\ndata: [DONE]\n"

/-- Token contribution of one message part as the source computes it:
`Math.ceil(length / 4)` per text part, other parts ignored. -/
def partTokenEstimate : MessagePart → Nat
  | MessagePart.text v => (v.length + 3) / 4
  | MessagePart.other => 0

/-- Modelled from the spec wording, for comparison with the source: "the
total character length of all text content in the messages divided by 4 and
rounded up" — a single rounding over the grand total. -/
def specMessagesTokens (msgs : List ChatMessage) : Nat :=
  ((msgs.map (fun m =>
      (m.content.map (fun p =>
        match p with
        | MessagePart.text v => v.length
        | MessagePart.other => 0)).sum)).sum + 3) / 4

/-! ## Helper lemmas: line splitting and the read loop -/

theorem pushChar_nil (c : Char) (t : List Char) : pushChar c ([], t) = ([], c :: t) := rfl

theorem pushChar_cons (c : Char) (l : List Char) (ls : List (List Char)) (t : List Char) :
    pushChar c (l :: ls, t) = ((c :: l) :: ls, t) := rfl

theorem splitNl_no_nl (t : List Char) (h : '\n' ∉ t) : splitNl t = ([], t) := by
  induction t with
  | nil => rfl
  | cons c cs ih =>
    have hc : ¬ c = '\n' := fun e => h (e ▸ List.mem_cons_self c cs)
    have hcs : '\n' ∉ cs := fun m => h (List.mem_cons_of_mem c m)
    simp [splitNl, hc, ih hcs, pushChar_nil]

theorem nl_not_mem_tail (s : List Char) : '\n' ∉ (splitNl s).2 := by
  induction s with
  | nil => simp [splitNl]
  | cons c cs ih =>
    by_cases hc : c = '\n'
    · simpa [splitNl, hc] using ih
    · rcases hsp : splitNl cs with ⟨l1, t1⟩
      rw [hsp] at ih
      cases l1 with
      | nil =>
        simp only [splitNl, if_neg hc, hsp, pushChar_nil]
        intro hm
        rcases List.mem_cons.mp hm with he | hm2
        · exact hc he.symm
        · exact ih hm2
      | cons l ls => simpa [splitNl, hc, hsp, pushChar_cons] using ih

theorem splitNl_append (a b : List Char) :
    splitNl (a ++ b)
      = ((splitNl a).1 ++ (splitNl ((splitNl a).2 ++ b)).1,
         (splitNl ((splitNl a).2 ++ b)).2) := by
  induction a with
  | nil => simp [splitNl]
  | cons c cs ih =>
    by_cases hc : c = '\n'
    · subst hc
      simp [splitNl, ih]
    · rcases hsp : splitNl cs with ⟨l1, t1⟩
      rw [hsp] at ih
      cases l1 with
      | nil =>
        simp at ih
        simp only [List.cons_append, splitNl, if_neg hc, hsp, pushChar_nil,
          List.nil_append, List.append_eq]
        rw [ih]
      | cons l ls =>
        simp [List.cons_append, splitNl, if_neg hc, ih, hsp, pushChar_cons]

theorem processLines_append (xs ys : List (List Char)) :
    processLines (xs ++ ys)
      = if (processLines xs).2 then processLines xs
        else ((processLines xs).1 ++ (processLines ys).1, (processLines ys).2) := by
  induction xs with
  | nil => simp [processLines]
  | cons l ls ih =>
    by_cases hp : dataPrefix.isPrefixOf l
    · by_cases hd : l.drop 6 = "[DONE]".data
      · simp [processLines, hp, hd]
      · cases hfin : (processLines ls).2 <;>
          simp [processLines, hp, hd, ih, hfin, List.append_assoc]
    · simp [processLines, hp, ih]

/-- Processing a chunk list from a newline-free carry-over buffer emits
exactly the parts of the complete lines of the concatenated stream. -/
theorem processChunks_join (chunks : List (List Char)) :
    ∀ b : List Char, '\n' ∉ b →
      processChunks neverCancelled b chunks
        = (processLines (splitNl (b ++ chunks.flatten)).1).1 := by
  induction chunks with
  | nil =>
    intro b hb
    simp [processChunks, splitNl_no_nl b hb, processLines]
  | cons c cs ih =>
    intro b hb
    have hshift : (fun i => neverCancelled (i + 1)) = neverCancelled := rfl
    have hnc : neverCancelled 0 = false := rfl
    have htail : '\n' ∉ (splitNl (b ++ c)).2 := nl_not_mem_tail (b ++ c)
    have hassoc : b ++ (c :: cs).flatten = (b ++ c) ++ cs.flatten := by
      simp [List.flatten]
    rw [hassoc, splitNl_append (b ++ c) cs.flatten]
    simp only [processChunks, hnc, Bool.false_eq_true, if_false, hshift]
    rw [processLines_append]
    cases hfin : (processLines (splitNl (b ++ c)).1).2 <;>
      simp [hfin, ih (splitNl (b ++ c)).2 htail]

/-- A token that reports cancellation from its `k`-th poll onward behaves
exactly like reading only the first `k` chunks with no cancellation. -/
theorem processChunks_cancelAfter (k : Nat) :
    ∀ (b : List Char) (chunks : List (List Char)),
      processChunks (fun i => decide (k ≤ i)) b chunks
        = processChunks neverCancelled b (chunks.take k) := by
  induction k with
  | zero =>
    intro b chunks
    cases chunks with
    | nil => rfl
    | cons c cs => simp [processChunks]
  | succ k ih =>
    intro b chunks
    cases chunks with
    | nil => rfl
    | cons c cs =>
      have hshift : (fun i => decide (k + 1 ≤ i + 1)) = (fun i => decide (k ≤ i)) := by
        funext i
        simp [Nat.succ_le_succ_iff]
      have hsh2 : (fun i => neverCancelled (i + 1)) = neverCancelled := rfl
      have hnc : neverCancelled 0 = false := rfl
      have hc0 : decide (k + 1 ≤ 0) = false := by simp
      simp only [processChunks, List.take_succ_cons, hnc, hc0,
        Bool.false_eq_true, if_false, hshift, hsh2]
      cases hfin : (processLines (splitNl (b ++ c)).1).2 <;> simp [hfin, ih]

theorem dataPrefix_isPrefixOf_append (p : List Char) :
    dataPrefix.isPrefixOf (dataPrefix ++ p) = true := by
  show List.isPrefixOf [ 'd', 'a', 't', 'a', ':', ' ']
      ([ 'd', 'a', 't', 'a', ':', ' '] ++ p) = true
  simp [List.isPrefixOf]

theorem dataPrefix_append_drop (p : List Char) : (dataPrefix ++ p).drop 6 = p := by
  show List.drop 6 ([ 'd', 'a', 't', 'a', ':', ' '] ++ p) = p
  simp

theorem parseJson_done_none : parseJson "[DONE]".data = none := rfl

/-! ## Claims -/

/-- C2: for every event stream and every way of splitting its characters
into read chunks, the streaming decoder emits the same sequence of parts as
when the whole stream arrives in a single chunk (the carry-over buffer
re-buffers the trailing partial line on each read, so a line is parsed only
once complete).  Proved for arbitrary streams, well-formed or not; byte-level
splits inside one UTF-8 character are equivalent to not splitting, because
`TextDecoder` in streaming mode buffers partial sequences. -/
theorem chunk_boundary_invariance (chunks : List (List Char)) :
    processStreamingResponse neverCancelled chunks
      = processStreamingResponse neverCancelled [chunks.flatten] := by
  have h1 := processChunks_join chunks [] (by simp)
  have h2 := processChunks_join [chunks.flatten] [] (by simp)
  simp only [processStreamingResponse]
  rw [h1, h2]
  simp

/-- C5: the read loop polls the cancellation token before every read, so a
token that becomes cancelled at its `k`-th poll yields exactly the parts of
the first `k` chunks and nothing further; the decode is a total function, so
the cancelled runs return normally (no error). -/
theorem cancellation_stops_reading (k : Nat) (chunks : List (List Char)) :
    processStreamingResponse (fun i => decide (k ≤ i)) chunks
      = processStreamingResponse neverCancelled (chunks.take k) :=
  processChunks_cancelAfter k [] chunks

/-- C3: once a complete `data: [DONE]` line is processed, the decode
terminates successfully (`true`) with the parts emitted so far, and any
lines after the sentinel — the `rest` is arbitrary — are never processed. -/
theorem done_sentinel_stops_processing (ls rest : List (List Char))
    (h : (processLines ls).2 = false) :
    processLines (ls ++ ("data: [DONE]".data :: rest)) = ((processLines ls).1, true) := by
  induction ls with
  | nil => rfl
  | cons l ls ih =>
    by_cases hp : dataPrefix.isPrefixOf l = true
    · by_cases hd : l.drop 6 = "[DONE]".data
      · simp [processLines, hp, hd] at h
      · have h2 : (processLines ls).2 = false := by
          simpa [processLines, hp, hd] using h
        simp [processLines, hp, hd, ih h2]
    · have h2 : (processLines ls).2 = false := by
        simpa [processLines, hp] using h
      simp [processLines, hp, ih h2]

theorem done_sentinel_stops_processing_witness :
    processLines
        (["data: \x7b\"choices\":[\x7b\"delta\":\x7b\"content\":\"Hel\"\x7d\x7d]\x7d".data]
          ++ ("data: [DONE]".data
              :: ["data: \x7b\"choices\":[\x7b\"delta\":\x7b\"content\":\"lo\"\x7d\x7d]\x7d".data]))
      = ([Part.text "Hel"], true) :=
  (done_sentinel_stops_processing
      ["data: \x7b\"choices\":[\x7b\"delta\":\x7b\"content\":\"Hel\"\x7d\x7d]\x7d".data]
      ["data: \x7b\"choices\":[\x7b\"delta\":\x7b\"content\":\"lo\"\x7d\x7d]\x7d".data]
      rfl).trans rfl

/-- C4: a malformed-JSON event line sitting between two well-formed event
lines is skipped on its own — the stream neither terminates (`false`) nor
loses the parts carried by the surrounding well-formed events. -/
theorem malformed_event_isolated (p1 pbad p2 : List Char) (j1 j2 : Json)
    (h1 : parseJson p1 = some j1) (h2 : parseJson p2 = some j2)
    (hbad : parseJson pbad = none) (hnd : pbad ≠ "[DONE]".data) :
    processLines [dataPrefix ++ p1, dataPrefix ++ pbad, dataPrefix ++ p2]
      = (emitForData p1 ++ emitForData p2, false) := by
  have d1 : ¬ p1 = "[DONE]".data := by
    intro e
    rw [e, parseJson_done_none] at h1
    exact Option.noConfusion h1
  have d2 : ¬ p2 = "[DONE]".data := by
    intro e
    rw [e, parseJson_done_none] at h2
    exact Option.noConfusion h2
  have ebad : emitForData pbad = [] := by simp [emitForData, hbad]
  simp [processLines, dataPrefix_isPrefixOf_append, dataPrefix_append_drop,
    d1, d2, hnd, ebad]

theorem malformed_event_isolated_witness :
    processLines
        [dataPrefix ++ "\x7b\"choices\":[\x7b\"delta\":\x7b\"content\":\"Hel\"\x7d\x7d]\x7d".data,
         dataPrefix ++ "\x7bnope".data,
         dataPrefix ++ "\x7b\"choices\":[\x7b\"delta\":\x7b\"content\":\"lo\"\x7d\x7d]\x7d".data]
      = ([Part.text "Hel", Part.text "lo"], false) :=
  (malformed_event_isolated
      "\x7b\"choices\":[\x7b\"delta\":\x7b\"content\":\"Hel\"\x7d\x7d]\x7d".data
      "\x7bnope".data
      "\x7b\"choices\":[\x7b\"delta\":\x7b\"content\":\"lo\"\x7d\x7d]\x7d".data
      (Json.obj [("choices", Json.arr [Json.obj [("delta",
        Json.obj [("content", Json.str "Hel")])]])])
      (Json.obj [("choices", Json.arr [Json.obj [("delta",
        Json.obj [("content", Json.str "lo")])]])])
      rfl rfl rfl (by decide)).trans rfl

/-- C10: a successfully parsed streaming event whose first choice's delta
content is absent or the empty string (more generally, falsy) emits no text
part; a truthy content fragment emits exactly the one corresponding text
part. -/
theorem empty_content_not_emitted (data : List Char) (j : Json)
    (hp : parseJson data = some j) :
    ((deltaContent j = none ∨ deltaContent j = some (Json.str "")) →
        emitForData data = [])
    ∧ (∀ c, deltaContent j = some c → jsTruthy c = true →
        emitForData data = [Part.text (jsToString c)]) := by
  have hempty : jsTruthy (Json.str "") = false := rfl
  constructor
  · rintro (h | h) <;> simp [emitForData, hp, h, hempty]
  · intro c hc ht
    simp [emitForData, hp, hc, ht]

theorem empty_content_not_emitted_witness :
    emitForData "\x7b\"choices\":[\x7b\"delta\":\x7b\"content\":\"\"\x7d\x7d]\x7d".data = [] :=
  (empty_content_not_emitted
      "\x7b\"choices\":[\x7b\"delta\":\x7b\"content\":\"\"\x7d\x7d]\x7d".data
      (Json.obj [("choices", Json.arr [Json.obj [("delta",
        Json.obj [("content", Json.str "")])]])])
      rfl).1 (Or.inr rfl)

/-- C1 (against the spec): the streaming loop inspects only
`choices[0].delta.content`; the declared tool-call accumulation state is
never consulted, so a well-formed split tool-call delta stream — the spec's
own worked example, with id, name, fragmented arguments at index 0 and a
finish signal — produces no tool-invocation part (indeed no part at all)
instead of the specified single reconstructed tool call. -/
theorem toolCall_deltas_emit_nothing :
    processStreamingResponse neverCancelled [toolCallStream.data] = [] := rfl

/-- C6 (counterexample): with a present `max_tokens` of `0` the source's
`options.modelOptions?.max_tokens || 4096` falls back to 4096, while the
claim's formula `min(requested ?? 4096, model.maxOutputTokens)` demands
`min(0, 16000) = 0`. -/
theorem max_tokens_zero_counterexample :
    (mkRequestBody "m" 16000 (some 0) none).max_tokens = 4096
    ∧ min ((some (0 : Int)).getD 4096) 16000 = 0
    ∧ (4096 : Int) ≠ 0 := by decide

/-- C6 (amended): the request body's `max_tokens` equals
`min(requested, model.maxOutputTokens)` for a present non-zero `requested`,
and `min(4096, model.maxOutputTokens)` when `requested` is absent — or
present but `0`, since the source combines the option with `||`, not `??`. -/
theorem max_tokens_clamping_amended (modelId : String) (maxOut : Int)
    (t : Option Rat) (r : Int) :
    (mkRequestBody modelId maxOut none t).max_tokens = min 4096 maxOut
    ∧ (mkRequestBody modelId maxOut (some 0) t).max_tokens = min 4096 maxOut
    ∧ (r ≠ 0 → (mkRequestBody modelId maxOut (some r) t).max_tokens = min r maxOut) := by
  refine ⟨rfl, rfl, fun hr => ?_⟩
  simp [mkRequestBody, jsOr, hr]

theorem max_tokens_clamping_amended_witness :
    (mkRequestBody "m" 16000 (some 5000) none).max_tokens = min 5000 16000 :=
  (max_tokens_clamping_amended "m" 16000 none 5000).2.2 (by decide)

theorem inner_foldl_tokens (ps : List MessagePart) :
    ∀ t : Nat,
      ps.foldl
        (fun t p =>
          match p with
          | MessagePart.text v => t + (v.length + 3) / 4
          | MessagePart.other => t) t
        = t + (ps.map partTokenEstimate).sum := by
  induction ps with
  | nil => intro t; simp
  | cons p ps ih =>
    intro t
    cases p with
    | text v => simp [List.foldl_cons, ih, partTokenEstimate, Nat.add_assoc]
    | other => simp [List.foldl_cons, ih, partTokenEstimate]

theorem outer_foldl_tokens (ms : List ChatMessage) :
    ∀ n : Nat,
      ms.foldl
        (fun total m =>
          m.content.foldl
            (fun t p =>
              match p with
              | MessagePart.text v => t + (v.length + 3) / 4
              | MessagePart.other => t)
            total) n
        = n + (ms.map (fun m => (m.content.map partTokenEstimate).sum)).sum := by
  induction ms with
  | nil => intro n; simp
  | cons m ms ih =>
    intro n
    rw [List.foldl_cons]
    rw [inner_foldl_tokens, ih]
    simp [Nat.add_assoc]

theorem estimateMessagesTokens_eq (msgs : List ChatMessage) :
    estimateMessagesTokens msgs
      = (msgs.map (fun m => (m.content.map partTokenEstimate).sum)).sum := by
  simpa [estimateMessagesTokens] using outer_foldl_tokens msgs 0

/-- C7 (counterexample): on a message with two one-character text parts the
source's per-part rounding gives 1 + 1 = 2 tokens, while the claim's single
rounding over the total length gives ⌈2/4⌉ = 1. -/
theorem token_estimate_counterexample :
    estimateMessagesTokens [⟨[MessagePart.text "a", MessagePart.text "b"]⟩] = 2
    ∧ specMessagesTokens [⟨[MessagePart.text "a", MessagePart.text "b"]⟩] = 1
    ∧ (2 : Nat) ≠ 1 := by decide

/-- C7 (amended): the message estimate is the sum, over messages and text
parts, of each part's `⌈length / 4⌉` (rounding per part, not once over the
total); the estimator is a total function, and the tool estimate is 0 for
absent or empty tool arrays. -/
theorem token_estimate_amended (msgs : List ChatMessage)
    (tools : Option (List ToolSchema)) :
    estimateMessagesTokens msgs
      = (msgs.map (fun m => (m.content.map partTokenEstimate).sum)).sum
    ∧ (tools = none → estimateToolTokens tools = 0)
    ∧ (tools = some [] → estimateToolTokens tools = 0) := by
  refine ⟨estimateMessagesTokens_eq msgs, ?_, ?_⟩
  · rintro rfl; rfl
  · rintro rfl; rfl

theorem token_estimate_amended_witness :
    estimateMessagesTokens [⟨[MessagePart.text "hi", MessagePart.other]⟩] = 1
    ∧ estimateToolTokens none = 0 :=
  ⟨((token_estimate_amended [⟨[MessagePart.text "hi", MessagePart.other]⟩] none).1).trans rfl,
   (token_estimate_amended [⟨[MessagePart.text "hi", MessagePart.other]⟩] none).2.1 rfl⟩

/-- C8: when the response content type is not an event stream, the decoder
emits exactly one text part: the first choice's message content when that is
neither null nor undefined, else the alternate `assistant.response[0].content`
shape, else the 2-space pretty-printing of the whole document. -/
theorem non_streaming_single_text_part (ct : Option String) (cancelled : Nat → Bool)
    (chunks : List (List Char)) (json : Json)
    (hct : isEventStreamContent ct = false) :
    respondParts ct cancelled chunks json = [Part.text (nonStreamText json)]
    ∧ (jsNullish (choiceMessageContent json) = false →
        nonStreamText json = jsToString ((choiceMessageContent json).getD Json.null))
    ∧ (jsNullish (choiceMessageContent json) = true →
        jsNullish (assistantResponseContent json) = false →
        nonStreamText json = jsToString ((assistantResponseContent json).getD Json.null))
    ∧ (jsNullish (choiceMessageContent json) = true →
        jsNullish (assistantResponseContent json) = true →
        nonStreamText json = jsonStringify 2 0 json) := by
  refine ⟨by simp [respondParts, hct, nonStreamingParts], ?_, ?_, ?_⟩
  · intro h1
    simp [nonStreamText, h1]
  · intro h1 h2
    simp [nonStreamText, h1, h2]
  · intro h1 h2
    simp [nonStreamText, h1, h2]

theorem non_streaming_single_text_part_witness :
    respondParts (some "application/json") neverCancelled []
        (Json.obj [("choices", Json.arr [Json.obj [("message",
          Json.obj [("content", Json.str "hi")])]])])
      = [Part.text "hi"] :=
  ((non_streaming_single_text_part (some "application/json") neverCancelled []
      (Json.obj [("choices", Json.arr [Json.obj [("message",
        Json.obj [("content", Json.str "hi")])]])])
      rfl).1).trans rfl

/-- C9: the eight assignments at the top of the response entry point wipe
every per-turn field, so the post-reset state is the fresh-provider state and
is independent of whatever any previous turn left in the instance. -/
theorem turn_state_reset_complete (s t : TurnState) :
    resetTurnState s = freshTurnState ∧ resetTurnState s = resetTurnState t :=
  ⟨rfl, rfl⟩

end LiteLLM
